import Mathlib

/-!
Verification of the `string_repeater` micro-benchmark (`src/main.rs`).

The program reads one line from the operator, spawns one worker thread per
hardware thread, each worker repeatedly clones the shared string and bumps a
shared atomic counter, while a logger thread periodically renders a
fixed-width statistics line and rewrites a log file in place from offset 0.
A Ctrl+C handler stores `false` into a shared run flag to stop all loops.

This file shallowly embeds the parts of `main.rs` that the specification
talks about:

* the rendering of the statistics line (`logger_task`, the `format!` calls);
* the seek-to-zero / overwrite discipline on the log file;
* the shared counter / run-flag state machine (`processor_task`, the Ctrl+C
  handler);
* the speed formula of the logger and of the final summary;
* the control flow of `main` (input loop, log-file opening, thread spawning,
  handler registration) as an event trace.

Machine `usize` arithmetic is modelled as `Nat` with explicit `% 2 ^ 64`;
the two floating-point quantities that are only ever rendered (elapsed
seconds and speed) are modelled by their exact decimal value in hundredths,
and the speed computation itself over `ℚ`.
-/

namespace StringRepeater

/-! ## Rendering of the statistics line (`logger_task`, `src/main.rs`) -/

/-- The `LOG_LINE_WIDTH` constant of `main.rs`: the fixed width of the
rendered log line. -/
def LOG_LINE_WIDTH : Nat := 100

/-- Model of Rust left-justified padding `format!("{: <w$}", s)` (also the
`{:<15}` / `{:<10.2?}` / `{:<15.2?}` field specifiers): the string is padded
on the right with spaces up to a minimum width `w`.  A Rust width specifier
never truncates: a string longer than `w` is emitted unchanged. -/
def leftJustify (w : Nat) (s : String) : String :=
  s ++ String.mk (List.replicate (w - s.length) ' ')

/-- Model of printing a nonnegative numeric value with exactly two decimal
places (Rust `{:.2}` formatting of `f32` / `f64`).  The value is given
exactly as a whole number of hundredths `h` and rendered as the decimal
integer part, a point, and exactly two decimal digits. -/
def fmtFixed2 (h : Nat) : String :=
  Nat.repr (h / 100) ++ "." ++
    String.mk [Nat.digitChar (h % 100 / 10), Nat.digitChar (h % 10)]

/-- The `stats_string` built in `logger_task`:
`format!("Processed: {:<15} | Elapsed: {:<10.2?}s | Speed: {:<15.2?}/s",
processed_count, elapsed_time.as_secs_f32(), average_speed)`.
`count` is the loaded counter value; `elapsedH` and `speedH` are the elapsed
seconds and the average speed, in exact hundredths. -/
def stats_string (count elapsedH speedH : Nat) : String :=
  "Processed: " ++ leftJustify 15 (Nat.repr count) ++
  " | Elapsed: " ++ leftJustify 10 (fmtFixed2 elapsedH) ++
  "s | Speed: " ++ leftJustify 15 (fmtFixed2 speedH) ++ "/s"

/-- The `padded_stats_string` of `logger_task`:
`format!("{: <width$}", stats_string, width = LOG_LINE_WIDTH)`. -/
def padded_stats_string (count elapsedH speedH : Nat) : String :=
  leftJustify LOG_LINE_WIDTH (stats_string count elapsedH speedH)

theorem string_length_mk (l : List Char) : (String.mk l).length = l.length := rfl

theorem leftJustify_length (w : Nat) (s : String) :
    (leftJustify w s).length = max w s.length := by
  simp [leftJustify, String.length_append]
  omega

/-- A string consisting of space characters only. -/
def spacesOnly (s : String) : Prop := ∀ c ∈ s.data, c = ' '

theorem spacesOnly_replicate (n : Nat) :
    spacesOnly (String.mk (List.replicate n ' ')) := by
  intro c hc
  exact List.eq_of_mem_replicate hc

theorem leftJustify_pad (w : Nat) (s : String) :
    ∃ pad, leftJustify w s = s ++ pad ∧ spacesOnly pad :=
  ⟨String.mk (List.replicate (w - s.length) ' '), rfl, spacesOnly_replicate _⟩

set_option maxRecDepth 8192 in
/-- **C1, counterexample.**  The claim says the rendered line is *truncated*
when longer than 100 characters, so that it is always exactly 100 bytes.
The padding `format!("{: <width$}", ...)` in `logger_task` never truncates:
for an elapsed time of `10 ^ 38` seconds (representable as an `f32`, whose
two-decimal rendering is 42 characters wide) the padded line is 108 bytes
long, not 100. -/
theorem c1_exact_width_counterexample :
    (padded_stats_string 3 (10 ^ 40) 0).length = 108 ∧
    ¬ (padded_stats_string 3 (10 ^ 40) 0).length = 100 := by
  constructor <;> decide

/-- **C1 (amended).**  The stats line is right-padded with trailing spaces to
exactly `LOG_LINE_WIDTH = 100` bytes whenever the rendered line is at most
100 characters long; a rendered line longer than 100 characters is written
unchanged — it is never truncated. -/
theorem c1_fixed_width_amended (count elapsedH speedH : Nat) :
    ((stats_string count elapsedH speedH).length ≤ LOG_LINE_WIDTH →
      (padded_stats_string count elapsedH speedH).length = LOG_LINE_WIDTH ∧
      ∃ pad, padded_stats_string count elapsedH speedH =
        stats_string count elapsedH speedH ++ pad ∧ spacesOnly pad) ∧
    (LOG_LINE_WIDTH < (stats_string count elapsedH speedH).length →
      padded_stats_string count elapsedH speedH = stats_string count elapsedH speedH) := by
  constructor
  · intro h
    refine ⟨?_, leftJustify_pad _ _⟩
    rw [padded_stats_string, leftJustify_length]
    omega
  · intro h
    rw [padded_stats_string, leftJustify]
    have hz : LOG_LINE_WIDTH - (stats_string count elapsedH speedH).length = 0 := by omega
    rw [hz]
    show stats_string count elapsedH speedH ++ "" = _
    exact String.append_empty _

/-- **C1 (amended), witness.**  A concrete instantiation: with
`count = 123456`, `elapsed = 6.10 s`, `speed = 20238.69 /s` the rendered
line fits in 100 characters and the padded line is exactly 100 bytes. -/
theorem c1_fixed_width_witness :
    (stats_string 123456 610 2023869).length ≤ LOG_LINE_WIDTH ∧
    (padded_stats_string 123456 610 2023869).length = LOG_LINE_WIDTH :=
  ⟨by decide, ((c1_fixed_width_amended 123456 610 2023869).1 (by decide)).1⟩

theorem digitChar_isDigit {n : Nat} (h : n ≤ 9) : (Nat.digitChar n).isDigit = true := by
  interval_cases n <;> decide

/-- Modelled from the spec's words (the form
`Processed: <count left-justified in a 15-char field> | Elapsed: <seconds, 2
decimals> s | Speed: <ops/sec, 2 decimals> /s`): the line is the three
labelled fields in order; the count field is the decimal count followed by
space padding and fills at least 15 characters; the elapsed and speed fields
are a value with a decimal point followed by exactly two decimal digits,
then space padding, then the unit. -/
def specStatsLineForm (count : Nat) (line : String) : Prop :=
  ∃ cpad eInt eFrac epad sInt sFrac spad,
    line =
      "Processed: " ++ (Nat.repr count ++ cpad) ++
      " | Elapsed: " ++ (eInt ++ "." ++ eFrac ++ epad) ++
      "s | Speed: " ++ (sInt ++ "." ++ sFrac ++ spad) ++ "/s" ∧
    spacesOnly cpad ∧
    (Nat.repr count ++ cpad).length = max 15 (Nat.repr count).length ∧
    eFrac.length = 2 ∧ (∀ c ∈ eFrac.data, c.isDigit = true) ∧ spacesOnly epad ∧
    sFrac.length = 2 ∧ (∀ c ∈ sFrac.data, c.isDigit = true) ∧ spacesOnly spad

theorem fmtFixed2_digits (h : Nat) :
    ∀ c ∈ (String.mk [Nat.digitChar (h % 100 / 10), Nat.digitChar (h % 10)]).data,
      c.isDigit = true := by
  intro c hc
  have h1 : h % 100 / 10 ≤ 9 := by omega
  have h2 : h % 10 ≤ 9 := by omega
  have hd : (String.mk [Nat.digitChar (h % 100 / 10), Nat.digitChar (h % 10)]).data
      = [Nat.digitChar (h % 100 / 10), Nat.digitChar (h % 10)] := rfl
  rw [hd, List.mem_cons, List.mem_singleton] at hc
  rcases hc with hc | hc <;> rw [hc]
  · exact digitChar_isDigit h1
  · exact digitChar_isDigit h2

/-- **C2.**  Every stats line `logger_task` renders has the claimed shape:
in order, the `Processed:` label with the count left-justified in a
15-character field, the `Elapsed:` label with a two-decimal seconds value,
the `s` unit, the `Speed:` label with a two-decimal throughput value, and
the `/s` unit. -/
theorem c2_stats_line_form (count elapsedH speedH : Nat) :
    specStatsLineForm count (stats_string count elapsedH speedH) := by
  obtain ⟨cpad, hc, hcs⟩ := leftJustify_pad 15 (Nat.repr count)
  obtain ⟨epad, he, hes⟩ := leftJustify_pad 10 (fmtFixed2 elapsedH)
  obtain ⟨spad, hs, hss⟩ := leftJustify_pad 15 (fmtFixed2 speedH)
  refine ⟨cpad, Nat.repr (elapsedH / 100),
    String.mk [Nat.digitChar (elapsedH % 100 / 10), Nat.digitChar (elapsedH % 10)], epad,
    Nat.repr (speedH / 100),
    String.mk [Nat.digitChar (speedH % 100 / 10), Nat.digitChar (speedH % 10)], spad,
    ?_, hcs, ?_, rfl, fmtFixed2_digits elapsedH, hes, rfl, fmtFixed2_digits speedH, hss⟩
  · rw [stats_string, hc, he, hs, fmtFixed2, fmtFixed2]
  · rw [← hc, leftJustify_length]

/-! ## The log file (`main`'s `OpenOptions` setup and `logger_task`'s writes) -/

/-- Model of the log `File`: its byte content (as characters — the stats
line is ASCII) and the current cursor position. -/
structure FileState where
  content : List Char
  pos : Nat
deriving DecidableEq

/-- The log file as opened once in `main`:
`OpenOptions::new().write(true).create(true).truncate(true).open(LOG_FILE_PATH)` —
the content starts empty (truncated), cursor at byte 0. -/
def openLogFile : FileState := ⟨[], 0⟩

/-- `log_file.seek(SeekFrom::Start(0))` in `logger_task`. -/
def seekStart (f : FileState) : FileState := ⟨f.content, 0⟩

/-- `log_file.write_all(data)` in `logger_task`: overwrites `data.length`
bytes at the cursor, extending the file only when the write runs past the
current end; the cursor advances past the written bytes. -/
def writeAll (f : FileState) (data : List Char) : FileState :=
  ⟨f.content.take f.pos ++ data ++ f.content.drop (f.pos + data.length),
   f.pos + data.length⟩

/-- One successful report tick of `logger_task`: seek to byte offset 0, then
write the padded line (the subsequent flush does not change the content). -/
def logTick (f : FileState) (line : String) : FileState :=
  writeAll (seekStart f) line.data

/-- The file after a sequence of successful report ticks, starting from the
freshly truncated file of `main`. -/
def logRun (lines : List String) : FileState :=
  lines.foldl logTick openLogFile

theorem logTick_content (f : FileState) (line : String) :
    (logTick f line).content = line.data ++ f.content.drop line.length := by
  simp [logTick, seekStart, writeAll]

theorem string_length_data (s : String) : s.data.length = s.length := rfl

theorem logRun_aux (lines : List String) (f : FileState)
    (hw : ∀ l ∈ lines, l.length = 100) (hne : lines ≠ [])
    (hf : f.content.length ≤ 100) :
    (lines.foldl logTick f).content = (lines.getLastD "").data ∧
    (lines.foldl logTick f).content.length = 100 := by
  induction lines generalizing f with
  | nil => cases hne rfl
  | cons l ls ih =>
    have hl : l.length = 100 := hw l (List.mem_cons_self l ls)
    have hstep : (logTick f l).content = l.data := by
      rw [logTick_content, List.drop_eq_nil_of_le, List.append_nil]
      omega
    have hsteplen : (logTick f l).content.length = 100 := by
      rw [hstep, string_length_data, hl]
    rw [List.foldl_cons]
    cases ls with
    | nil =>
      refine ⟨?_, hsteplen⟩
      rw [List.foldl_nil, hstep, List.getLastD_cons, List.getLastD_nil]
    | cons l2 ls2 =>
      have hrest := ih (logTick f l)
        (fun x hx => hw x (List.mem_cons_of_mem l hx)) (by simp) (by omega)
      refine ⟨?_, hrest.2⟩
      rw [hrest.1, List.getLastD_cons, List.getLastD_cons, List.getLastD_cons]

/-- **C3.**  The log file starts out truncated (empty), and after any
nonempty sequence of report ticks — each a seek to byte offset 0 followed by
a write of the fixed-width 100-byte line — its content is exactly the most
recent stats line and its length is exactly 100: the file is never appended
to and never grows. -/
theorem c3_overwrite_discipline (lines : List String)
    (hne : lines ≠ []) (hw : ∀ l ∈ lines, l.length = 100) :
    openLogFile.content = [] ∧
    (logRun lines).content = (lines.getLastD "").data ∧
    (logRun lines).content.length = 100 := by
  refine ⟨rfl, ?_, ?_⟩
  · exact (logRun_aux lines openLogFile hw hne (by simp [openLogFile])).1
  · exact (logRun_aux lines openLogFile hw hne (by simp [openLogFile])).2

/-- **C3, witness.**  Two concrete 100-byte ticks: afterwards the file holds
exactly the second line and is exactly 100 bytes long. -/
theorem c3_overwrite_discipline_witness :
    (logRun [String.mk (List.replicate 100 'a'),
             String.mk (List.replicate 100 'b')]).content = List.replicate 100 'b' ∧
    (logRun [String.mk (List.replicate 100 'a'),
             String.mk (List.replicate 100 'b')]).content.length = 100 := by
  have h := c3_overwrite_discipline
    [String.mk (List.replicate 100 'a'), String.mk (List.replicate 100 'b')]
    (by simp) (by decide)
  exact ⟨h.2.1, h.2.2⟩

/-! ## Shared counter and run flag (`processor_task`, the Ctrl+C handler) -/

/-- Modulus of `usize` arithmetic on the 64-bit target:
`AtomicUsize::fetch_add` wraps around on overflow. -/
def USIZE_MOD : Nat := 2 ^ 64

/-- The cross-thread shared state of the program: `processed_counter`
(`AtomicUsize`) and `running_flag` (`AtomicBool`) from `main`. -/
structure SysState where
  counter : Nat
  running : Bool
deriving DecidableEq

/-- `AtomicUsize::new(0)` and `AtomicBool::new(true)` in `main`. -/
def initState : SysState := ⟨0, true⟩

/-- The body of the Ctrl+C handler registered in `main`: its only effect on
shared state is `running_flag.store(false, Ordering::Relaxed)`. -/
def ctrlcHandler (s : SysState) : SysState := ⟨s.counter, false⟩

/-- One shared-state access of the program.  `work` is
`counter.fetch_add(1, Ordering::Relaxed)` in `processor_task` — a wrapping
`usize` increment, which can also fire for an iteration already in flight
when the flag flips; `ctrlcStore` is the handler's `store(false)`;
`readShared` covers the loads in `processor_task`, `logger_task` and the
final summary, which mutate nothing. -/
inductive Step : SysState → SysState → Prop where
  | work (s : SysState) : Step s ⟨(s.counter + 1) % USIZE_MOD, s.running⟩
  | ctrlcStore (s : SysState) : Step s (ctrlcHandler s)
  | readShared (s : SysState) : Step s s

theorem step_counter_mono (s s' : SysState) (hs : Step s s')
    (hlt : s.counter + 1 < USIZE_MOD) : s.counter ≤ s'.counter := by
  cases hs with
  | work =>
    show s.counter ≤ (s.counter + 1) % USIZE_MOD
    rw [Nat.mod_eq_of_lt hlt]
    omega
  | ctrlcStore => exact le_refl _
  | readShared => exact le_refl _

theorem counter_reach (n : Nat) (h : n < USIZE_MOD) :
    Relation.ReflTransGen Step initState ⟨n, true⟩ := by
  induction n with
  | zero => exact Relation.ReflTransGen.refl
  | succ n ih =>
    have hn : n < USIZE_MOD := by omega
    have hstep : Step ⟨n, true⟩ ⟨(n + 1) % USIZE_MOD, true⟩ := Step.work ⟨n, true⟩
    rw [Nat.mod_eq_of_lt h] at hstep
    exact Relation.ReflTransGen.tail (ih hn) hstep

/-- **C4, counterexample.**  The counter is a wrapping `usize`: from the
reachable state with counter `2 ^ 64 - 1` (and the run flag still `true`)
one more `fetch_add(1)` wraps the counter to `0`, which is a strict
decrease — so the counter is not monotonically non-decreasing in *every*
execution. -/
theorem c4_monotone_counterexample :
    Relation.ReflTransGen Step initState ⟨USIZE_MOD - 1, true⟩ ∧
    Step ⟨USIZE_MOD - 1, true⟩ ⟨0, true⟩ ∧
    (0 : Nat) < USIZE_MOD - 1 := by
  have hpos : 0 < USIZE_MOD := by decide
  refine ⟨counter_reach _ (by omega), ?_, by decide⟩
  have hstep := Step.work ⟨USIZE_MOD - 1, true⟩
  have hmod : (USIZE_MOD - 1 + 1) % USIZE_MOD = 0 := by
    rw [Nat.sub_add_cancel (by omega), Nat.mod_self]
  rw [hmod] at hstep
  exact hstep

/-- **C4 (amended).**  `processed_counter` is initialized to `0`; each
completed duplication increments it by exactly `1` modulo `2 ^ 64` (wrapping
`usize` arithmetic) and no other operation changes it; consequently it is
monotonically non-decreasing along any execution in which every increment
starts below `2 ^ 64 - 1`, i.e. in every execution with fewer than `2 ^ 64`
increments. -/
theorem c4_counter_monotone_amended :
    initState.counter = 0 ∧
    (∀ s s', Step s s' →
      s'.counter = s.counter ∨ s'.counter = (s.counter + 1) % USIZE_MOD) ∧
    (∀ s s', Step s s' → s.counter + 1 < USIZE_MOD → s.counter ≤ s'.counter) ∧
    (∀ s s', Relation.ReflTransGen
        (fun a b => Step a b ∧ a.counter + 1 < USIZE_MOD) s s' →
      s.counter ≤ s'.counter) := by
  refine ⟨rfl, ?_, step_counter_mono, ?_⟩
  · intro s s' hs
    cases hs with
    | work => exact Or.inr rfl
    | ctrlcStore => exact Or.inl rfl
    | readShared => exact Or.inl rfl
  · intro s s' hchain
    induction hchain with
    | refl => exact le_refl _
    | tail _ hstep ih => exact le_trans ih (step_counter_mono _ _ hstep.1 hstep.2)

/-- **C4 (amended), witness.**  Concretely: the counter starts at `0`, and
the first duplication (from the initial state, far below the wrap point)
does not decrease it. -/
theorem c4_counter_monotone_amended_witness :
    initState.counter = 0 ∧ initState.counter ≤ (⟨1, true⟩ : SysState).counter := by
  have hstep : Step initState ⟨1, true⟩ := by
    have h := Step.work initState
    have hmod : (initState.counter + 1) % USIZE_MOD = 1 := by decide
    rw [hmod] at h
    exact h
  exact ⟨c4_counter_monotone_amended.1,
    c4_counter_monotone_amended.2.2.1 initState ⟨1, true⟩ hstep (by decide)⟩

theorem step_running_stays_false (s s' : SysState) (hs : Step s s')
    (hf : s.running = false) : s'.running = false := by
  cases hs with
  | work => exact hf
  | ctrlcStore => rfl
  | readShared => exact hf

/-- **C5.**  `running_flag` starts `true`; the Ctrl+C handler's only effect
on shared state is storing `false` (the counter is untouched); invoking the
handler once or any number of times yields the same state with the flag
`false`; and no operation of the program ever turns the flag back to `true`:
once `false` it stays `false` along any sequence of steps. -/
theorem c5_runflag_shutdown (s s' : SysState) (n : Nat) :
    initState.running = true ∧
    (ctrlcHandler s).running = false ∧
    (ctrlcHandler s).counter = s.counter ∧
    ctrlcHandler^[n + 1] s = ctrlcHandler s ∧
    (Step s s' → s.running = false → s'.running = false) ∧
    (Relation.ReflTransGen Step s s' → s.running = false → s'.running = false) := by
  refine ⟨rfl, rfl, rfl, ?_, step_running_stays_false s s', ?_⟩
  · induction n with
    | zero => rfl
    | succ m ih =>
      rw [Function.iterate_succ_apply', ih]
      rfl
  · intro hchain hf
    induction hchain with
    | refl => exact hf
    | tail _ hstep ih => exact step_running_stays_false _ _ hstep ih

/-- **C5, witness.**  Concretely: pressing Ctrl+C three times from the state
`⟨7, true⟩` gives the same state as pressing it once, with the flag `false`
and the counter untouched; and from the already-stopped state `⟨7, false⟩` a
read step leaves the flag `false`. -/
theorem c5_runflag_shutdown_witness :
    (ctrlcHandler ⟨7, true⟩).running = false ∧
    (ctrlcHandler ⟨7, true⟩).counter = 7 ∧
    ctrlcHandler^[3] ⟨7, true⟩ = ctrlcHandler ⟨7, true⟩ ∧
    (⟨7, false⟩ : SysState).running = false := by
  have h := c5_runflag_shutdown ⟨7, true⟩ ⟨7, true⟩ 2
  have h2 := c5_runflag_shutdown ⟨7, false⟩ ⟨7, false⟩ 0
  exact ⟨h.2.1, h.2.2.1, h.2.2.2.1,
    h2.2.2.2.2.1 (Step.readShared ⟨7, false⟩) rfl⟩

/-! ## The speed formula (`logger_task` and the final summary in `main`) -/

/-- The `average_speed` computed on each tick of `logger_task`:
`if elapsed_secs > 0.0 { processed_count as f64 / elapsed_secs } else { 0.0 }`,
modelled over `ℚ`. -/
def average_speed (processed_count : Nat) (elapsed_secs : ℚ) : ℚ :=
  if 0 < elapsed_secs then (processed_count : ℚ) / elapsed_secs else 0

/-- The `avg_speed` computed for the final summary in `main`:
`if total_time.as_secs_f64() > 0.0 { final_count as f64 / total_time.as_secs_f64() } else { 0.0 }`,
modelled over `ℚ`. -/
def avg_speed (final_count : Nat) (total_secs : ℚ) : ℚ :=
  if 0 < total_secs then (final_count : ℚ) / total_secs else 0

/-- **C6.**  The per-tick speed of the logger and the final summary's
average throughput are the same function of the count and the elapsed
seconds: for positive elapsed time both equal `count / elapsed` (so speed
multiplied by the elapsed time recovers the count), and for elapsed time `0`
both are `0`. -/
theorem c6_speed_formula (count : Nat) (e : ℚ) :
    average_speed count e = avg_speed count e ∧
    (0 < e → average_speed count e = (count : ℚ) / e ∧
      average_speed count e * e = (count : ℚ)) ∧
    average_speed count 0 = 0 ∧ avg_speed count 0 = 0 := by
  refine ⟨rfl, fun he => ⟨if_pos he, ?_⟩, if_neg (lt_irrefl 0), if_neg (lt_irrefl 0)⟩
  rw [average_speed, if_pos he, div_mul_cancel₀]
  exact ne_of_gt he

/-- **C6, witness.**  Concretely: six operations in two seconds give speed
`3 = 6 / 2`, identically in the logger and in the final summary, and speed
times elapsed recovers the count. -/
theorem c6_speed_formula_witness :
    average_speed 6 2 = avg_speed 6 2 ∧
    average_speed 6 2 = (6 : ℚ) / 2 ∧
    average_speed 6 2 * 2 = (6 : ℚ) ∧
    average_speed 6 0 = 0 := by
  have h := c6_speed_formula 6 2
  have h0 := c6_speed_formula 6 0
  have hp := h.2.1 (by norm_num)
  exact ⟨h.1, hp.1, hp.2, h0.2.2.1⟩

/-! ## Control flow of `main`: input loop, setup, spawning, handler -/

/-- Rust's `str::trim` on the read line (ASCII whitespace, which includes
the trailing newline `read_line` leaves in the buffer): drop leading and
trailing whitespace characters. -/
def rustTrim (s : String) : String :=
  String.mk (((s.data.dropWhile Char.isWhitespace).reverse.dropWhile
    Char.isWhitespace).reverse)

/-- The input loop of `main`: each `read_line` yields the next element of
`inputs`; an exhausted list is `Ok(0)` (end of input).  A line whose trimmed
form is empty is rejected and the loop re-prompts; the first non-blank line
is accepted as `user_string` (trimmed); end of input yields `none`. -/
def readInputLoop : List String → Option String
  | [] => none
  | line :: rest =>
    if rustTrim line = "" then readInputLoop rest else some (rustTrim line)

/-- Observable startup events of `main`, in program order. -/
inductive Event where
  | eofExit
  | logOpened
  | workerSpawned (i : Nat)
  | loggerSpawned
  | handlerRegistered
  | threadsJoined
deriving DecidableEq

/-- Outcome of `main`. -/
inductive MainResult where
  | eofCleanExit
  | logOpenFailed
  | handlerPanicked
  | completed (payload : String) (workers : Nat)
deriving DecidableEq

/-- The environment `main` runs against: the operator's input lines, the
detected hardware parallelism, and whether opening the log file and
registering the Ctrl+C handler succeed. -/
structure MainEnv where
  inputs : List String
  parallelism : Nat
  logOpenOk : Bool
  handlerOk : Bool

/-- The control flow of `main` as an event trace, in source order: read the
input (returning `Ok(())` at once on end of input), open the log file with
`truncate(true)` (a failure propagates via `?`), spawn `parallelism` worker
threads, then the logger thread, *then* register the Ctrl+C handler (a
failure panics via `expect`), then join all threads and print the final
summary. -/
def mainModel (env : MainEnv) : List Event × MainResult :=
  match readInputLoop env.inputs with
  | none => ([Event.eofExit], MainResult.eofCleanExit)
  | some payload =>
    if env.logOpenOk then
      let spawnEvents :=
        (List.range env.parallelism).map Event.workerSpawned ++ [Event.loggerSpawned]
      if env.handlerOk then
        (Event.logOpened :: spawnEvents ++ [Event.handlerRegistered, Event.threadsJoined],
         MainResult.completed payload env.parallelism)
      else
        (Event.logOpened :: spawnEvents, MainResult.handlerPanicked)
    else
      ([], MainResult.logOpenFailed)

/-- **C7, counterexample.**  `ctrlc::set_handler(...).expect(...)` is called
in `main` only *after* the worker threads and the logger thread are spawned:
in a run where handler registration fails (input `"hello\n"`, parallelism 2,
log file fine), the process does abort, but the trace already contains the
worker and logger spawn events — registration failure does not abort startup
before any thread is spawned. -/
theorem c7_handler_order_counterexample :
    (mainModel ⟨["hello\n"], 2, true, false⟩).2 = MainResult.handlerPanicked ∧
    Event.workerSpawned 0 ∈ (mainModel ⟨["hello\n"], 2, true, false⟩).1 ∧
    Event.workerSpawned 1 ∈ (mainModel ⟨["hello\n"], 2, true, false⟩).1 ∧
    Event.loggerSpawned ∈ (mainModel ⟨["hello\n"], 2, true, false⟩).1 := by
  refine ⟨rfl, ?_, ?_, ?_⟩ <;> decide

/-- **C7 (amended).**  A failure to register the shutdown signal handler is
fatal — the run ends in the `expect` panic, never registers the handler and
never reaches the join or the final summary — but it happens only *after*
every worker thread and the reporter thread have been spawned, not before. -/
theorem c7_handler_failure_fatal_amended (env : MainEnv) (p : String)
    (hin : readInputLoop env.inputs = some p)
    (hlog : env.logOpenOk = true) (hh : env.handlerOk = false) :
    (mainModel env).2 = MainResult.handlerPanicked ∧
    (∀ i, i < env.parallelism → Event.workerSpawned i ∈ (mainModel env).1) ∧
    Event.loggerSpawned ∈ (mainModel env).1 ∧
    Event.handlerRegistered ∉ (mainModel env).1 ∧
    Event.threadsJoined ∉ (mainModel env).1 := by
  have hm : mainModel env =
      (Event.logOpened ::
        ((List.range env.parallelism).map Event.workerSpawned ++ [Event.loggerSpawned]),
       MainResult.handlerPanicked) := by
    rw [mainModel, hin]
    rw [hlog, hh]
    simp
  rw [hm]
  refine ⟨rfl, ?_, ?_, ?_, ?_⟩
  · intro i hi
    simp [List.mem_range, hi]
  · simp
  · simp
  · simp

/-- **C7 (amended), witness.**  A concrete failing registration: input
`"hello\n"`, parallelism 1, log file fine, handler registration failing —
the run panics, the worker and logger were spawned, the join is never
reached. -/
theorem c7_handler_failure_fatal_witness :
    (mainModel ⟨["hello\n"], 1, true, false⟩).2 = MainResult.handlerPanicked ∧
    Event.loggerSpawned ∈ (mainModel ⟨["hello\n"], 1, true, false⟩).1 ∧
    Event.threadsJoined ∉ (mainModel ⟨["hello\n"], 1, true, false⟩).1 := by
  have h := c7_handler_failure_fatal_amended ⟨["hello\n"], 1, true, false⟩ "hello"
    (by decide) rfl rfl
  exact ⟨h.1, h.2.2.1, h.2.2.2.2⟩

/-- **C9.**  If end of input occurs at the first prompt with no text read,
`main` returns `Ok(())` immediately (exit code 0): the trace consists of the
clean-exit event only — the log file is never opened or truncated and no
worker or logger thread is spawned. -/
theorem c9_eof_clean_exit (env : MainEnv) (h : env.inputs = []) :
    (mainModel env).1 = [Event.eofExit] ∧
    (mainModel env).2 = MainResult.eofCleanExit ∧
    Event.logOpened ∉ (mainModel env).1 ∧
    (∀ i, Event.workerSpawned i ∉ (mainModel env).1) ∧
    Event.loggerSpawned ∉ (mainModel env).1 := by
  have hm : mainModel env = ([Event.eofExit], MainResult.eofCleanExit) := by
    rw [mainModel, h]
    simp [readInputLoop]
  rw [hm]
  refine ⟨rfl, rfl, by decide, ?_, by decide⟩
  intro i
  simp

/-- **C9, witness.**  A concrete run hitting end of input at the first
prompt (with the log file otherwise openable and parallelism 4). -/
theorem c9_eof_clean_exit_witness :
    (mainModel ⟨[], 4, true, true⟩).1 = [Event.eofExit] ∧
    (mainModel ⟨[], 4, true, true⟩).2 = MainResult.eofCleanExit ∧
    Event.logOpened ∉ (mainModel ⟨[], 4, true, true⟩).1 := by
  have h := c9_eof_clean_exit ⟨[], 4, true, true⟩ rfl
  exact ⟨h.1, h.2.1, h.2.2.1⟩

theorem readInputLoop_accepted (lines : List String) (p : String)
    (h : readInputLoop lines = some p) :
    ∃ raw, raw ∈ lines ∧ p = rustTrim raw ∧ p ≠ "" := by
  induction lines with
  | nil => simp [readInputLoop] at h
  | cons line rest ih =>
    rw [readInputLoop] at h
    by_cases hb : rustTrim line = ""
    · rw [if_pos hb] at h
      obtain ⟨raw, hmem, htrim, hne⟩ := ih h
      exact ⟨raw, List.mem_cons_of_mem _ hmem, htrim, hne⟩
    · rw [if_neg hb] at h
      refine ⟨line, List.mem_cons_self _ _, ?_, ?_⟩
      · exact (Option.some.inj h).symm
      · rw [← Option.some.inj h]
        exact hb

/-- **C10.**  When `main` completes with a payload, that shared `Payload`
is the trimmed form of one of the operator's input lines — leading and
trailing whitespace, including the trailing newline `read_line` leaves,
removed — not the raw line; and it is nonempty, since the prompt loop
rejects lines that trim to the empty string. -/
theorem c10_payload_trimmed (env : MainEnv) (p : String) (n : Nat)
    (h : (mainModel env).2 = MainResult.completed p n) :
    ∃ raw, raw ∈ env.inputs ∧ p = rustTrim raw ∧ p ≠ "" := by
  have hin : readInputLoop env.inputs = some p := by
    rw [mainModel] at h
    rcases hr : readInputLoop env.inputs with _ | q
    · rw [hr] at h
      simp at h
    · rw [hr] at h
      rcases hlog : env.logOpenOk with _ | _ <;> rw [hlog] at h
      · simp at h
      · rcases hh : env.handlerOk with _ | _ <;> rw [hh] at h <;> simp at h
        rw [h.1]
  exact readInputLoop_accepted env.inputs p hin

/-- **C10, witness.**  A concrete completed run: the raw line
`"  hello \n"` yields the payload `"hello"` — trimmed and nonempty. -/
theorem c10_payload_trimmed_witness :
    (∃ raw, raw ∈ ["  hello \n"] ∧ ("hello" : String) = rustTrim raw ∧
      ("hello" : String) ≠ "") :=
  c10_payload_trimmed ⟨["  hello \n"], 2, true, true⟩ "hello" 2 (by decide)

/-! ## Reporter failure handling (`logger_task`'s match on the lock/seek/write) -/

/-- Console error messages `logger_task` can emit on a tick
(`eprintln!` in the three failure arms). -/
inductive ConsoleMsg where
  | lockFailed
  | seekFailed
  | writeFailed
deriving DecidableEq

/-- Which of the three fallible operations of one tick succeed:
`log_file_mutex.lock()`, `seek(SeekFrom::Start(0))`, `write_all(...)`.
(The final `flush()` has its error discarded by `unwrap_or_default`.) -/
structure TickEnv where
  lockOk : Bool
  seekOk : Bool
  writeOk : Bool
deriving DecidableEq

/-- One report tick of `logger_task` including its failure arms, translated
from the nested `match`/`if` on lock, seek and write: on a lock failure the
file is untouched and `Failed to acquire log file lock` is printed; on a
seek failure the file is untouched and `Error seeking in log file.` is
printed; on a write failure the content is unchanged (only the cursor moved
by the successful seek) and `Error writing to log file.` is printed; on
success the padded line is written from offset 0.  Each failure is reported
once and never retried within the tick; nothing is fatal. -/
def logTickChecked (env : TickEnv) (f : FileState) (line : String) :
    FileState × List ConsoleMsg :=
  if env.lockOk then
    if env.seekOk then
      if env.writeOk then (writeAll (seekStart f) line.data, [])
      else (seekStart f, [ConsoleMsg.writeFailed])
    else (f, [ConsoleMsg.seekFailed])
  else (f, [ConsoleMsg.lockFailed])

/-- The logger loop over a sequence of report ticks: every tick is
attempted in turn, whatever happened on the previous ones; the loop never
aborts.  Returns the final file state and the console output of each tick. -/
def loggerLoop (ticks : List (TickEnv × String)) (f : FileState) :
    FileState × List (List ConsoleMsg) :=
  match ticks with
  | [] => (f, [])
  | (env, line) :: rest =>
    let done := logTickChecked env f line
    let restRun := loggerLoop rest done.1
    (restRun.1, done.2 :: restRun.2)

theorem loggerLoop_ticks_attempted (ticks : List (TickEnv × String)) (f : FileState) :
    (loggerLoop ticks f).2.length = ticks.length := by
  induction ticks generalizing f with
  | nil => rfl
  | cons t rest ih =>
    obtain ⟨env, line⟩ := t
    rw [loggerLoop]
    simp only [List.length_cons]
    rw [ih]

/-- **C8.**  If on a tick the lock, the seek, or the write fails, then: the
file content is unchanged by that tick (the update is skipped), exactly one
error message is logged to the console (the failure is reported and not
retried within the tick), and the loop goes on to attempt every remaining
tick — a tick failure is never fatal. -/
theorem c8_tick_failure_nonfatal (env : TickEnv) (f : FileState) (line : String)
    (ticks : List (TickEnv × String))
    (hfail : ¬(env.lockOk = true ∧ env.seekOk = true ∧ env.writeOk = true)) :
    (logTickChecked env f line).1.content = f.content ∧
    (logTickChecked env f line).2.length = 1 ∧
    (loggerLoop ((env, line) :: ticks) f).2.length = ticks.length + 1 := by
  refine ⟨?_, ?_, ?_⟩
  · rcases env with ⟨lockOk, seekOk, writeOk⟩
    rcases lockOk <;> rcases seekOk <;> rcases writeOk <;>
      simp_all [logTickChecked, seekStart]
  · rcases env with ⟨lockOk, seekOk, writeOk⟩
    rcases lockOk <;> rcases seekOk <;> rcases writeOk <;>
      simp_all [logTickChecked]
  · rw [loggerLoop]
    simp only [List.length_cons]
    rw [loggerLoop_ticks_attempted]

/-- **C8, witness.**  A concrete failing tick — the seek fails on a file
holding `"old"` — followed by one more tick: the content survives the
failing tick, one message is printed, and both ticks run. -/
theorem c8_tick_failure_nonfatal_witness :
    (logTickChecked ⟨true, false, true⟩ ⟨['o', 'l', 'd'], 0⟩ "new").1.content
      = ['o', 'l', 'd'] ∧
    (logTickChecked ⟨true, false, true⟩ ⟨['o', 'l', 'd'], 0⟩ "new").2.length = 1 ∧
    (loggerLoop [(⟨true, false, true⟩, "new"), (⟨true, true, true⟩, "new2")]
      ⟨['o', 'l', 'd'], 0⟩).2.length = 2 :=
  c8_tick_failure_nonfatal ⟨true, false, true⟩ ⟨['o', 'l', 'd'], 0⟩ "new"
    [(⟨true, true, true⟩, "new2")] (by decide)
